import Mathlib

/-
Verification of the core bridging / session-routing engine of the
message-bridge plugin (Feishu / Microsoft Teams bridge for a backend
conversational agent).

The definitions below are shallow embeddings of the plugin's source:

* `isMessageProcessed` embeds `TeamsClient.isMessageProcessed`
  (src/teams/teamsClient.ts) and `FeishuClient.isMessageProcessed`
  (the Feishu client file); the JS `Set` of processed ids is modelled
  as an insertion-ordered duplicate-free `List String` whose head is the
  oldest inserted element, matching `Set.values().next().value`.
* `applyFragment` / `handleStreamUpdate` embed the per-message stream
  aggregation buffer (`handleStreamUpdate` in the handler file).
* `ensureValidToken` embeds `TeamsClient.ensureValidToken`.
* `resolveSession` / `invalidateSession` embed the session cache logic of
  `createMessageHandler`; the backend's `createSession` is modelled as a
  counter issuing distinct fresh session ids.
* `wsReceive` / `webhookReceive` embed the two Feishu inbound paths
  (`startWebSocket` / `startWebhook`), with the content parser abstracted
  by its result string.
* `QueueStep` embeds the per-conversation promise chain of
  `createMessageHandler` (`chatQueues`): a task's body starts only once
  the previous task's promise has settled, with rejections swallowed by
  `.catch` for chaining purposes.
-/

namespace MessageBridge

/-! ## Dedup cache (processed message ids)

JS source (teamsClient.ts lines 93-104, identical logic in the Feishu
client lines 44-56):

  if (processedMessageIds.has(messageId)) return true;
  processedMessageIds.add(messageId);
  if (processedMessageIds.size > 2000) {
    const first = processedMessageIds.values().next().value;
    processedMessageIds.delete(first);
  }
  return false;
-/

def DEDUP_CAPACITY : Nat := 2000

/-- Embeds `isMessageProcessed`: returns whether the id was already present
and the updated insertion-ordered set (head = oldest inserted). -/
def isMessageProcessed (ids : List String) (msgId : String) : Bool × List String :=
  if msgId ∈ ids then (true, ids)
  else
    let inserted := ids ++ [msgId]
    if DEDUP_CAPACITY < inserted.length then (false, inserted.tail)
    else (false, inserted)

theorem isMessageProcessed_of_mem {ids : List String} {x : String} (h : x ∈ ids) :
    isMessageProcessed ids x = (true, ids) := by
  simp [isMessageProcessed, h]

theorem isMessageProcessed_fst_of_not_mem {ids : List String} {x : String} (h : x ∉ ids) :
    (isMessageProcessed ids x).1 = false := by
  simp only [isMessageProcessed, if_neg h]
  split <;> rfl

theorem isMessageProcessed_mem_self (ids : List String) (x : String) :
    x ∈ (isMessageProcessed ids x).2 := by
  by_cases h : x ∈ ids
  · rw [isMessageProcessed_of_mem h]; exact h
  · simp only [isMessageProcessed, if_neg h]
    split
    · rename_i hlen
      cases ids with
      | nil => simp [DEDUP_CAPACITY] at hlen
      | cons a t => simp
    · simp

theorem isMessageProcessed_snd_not_mem {ids : List String} {x : String} (h : x ∉ ids) :
    (isMessageProcessed ids x).2 = (ids ++ [x]) ∨
    (isMessageProcessed ids x).2 = (ids ++ [x]).tail := by
  simp only [isMessageProcessed, if_neg h]
  split
  · right; rfl
  · left; rfl

theorem isMessageProcessed_length_le {ids : List String} {x : String}
    (h : ids.length ≤ DEDUP_CAPACITY) :
    (isMessageProcessed ids x).2.length ≤ DEDUP_CAPACITY := by
  by_cases hm : x ∈ ids
  · rw [isMessageProcessed_of_mem hm]; exact h
  · simp only [isMessageProcessed, if_neg hm]
    split
    · rename_i hlen
      simp only [List.length_tail, List.length_append, List.length_singleton]
      omega
    · rename_i hlen
      simp only [List.length_append, List.length_singleton] at *
      omega

/-- C5: for every external message id X, the dedup check returns false on the
first call with X (inserting X into the set) and returns true, leaving the set
unchanged, on every subsequent call with X for as long as X has not been
evicted. -/
theorem dedup_first_false_then_true (ids : List String) (x : String) :
    (x ∉ ids →
      (isMessageProcessed ids x).1 = false ∧ x ∈ (isMessageProcessed ids x).2) ∧
    (∀ s : List String, x ∈ s → isMessageProcessed s x = (true, s)) := by
  refine ⟨fun h => ⟨isMessageProcessed_fst_of_not_mem h, isMessageProcessed_mem_self ids x⟩,
    fun s hs => isMessageProcessed_of_mem hs⟩

theorem dedup_first_false_then_true_witness :
    ((isMessageProcessed ["a"] "x").1 = false ∧ "x" ∈ (isMessageProcessed ["a"] "x").2) ∧
    isMessageProcessed ["x", "a"] "x" = (true, ["x", "a"]) :=
  ⟨(dedup_first_false_then_true ["a"] "x").1 (by decide),
   (dedup_first_false_then_true ["a"] "x").2 ["x", "a"] (by decide)⟩

/-- C6: after every completed dedup-check operation the processed-id set holds
at most 2000 entries; when an insert pushes the set over this ceiling the
single evicted entry is the least-recently-inserted surviving one (the head of
the insertion order), and re-seeing an id does not refresh its position (the
set is left entirely unchanged). -/
theorem dedup_capacity_eviction (ids : List String) (x : String) :
    (ids.length ≤ DEDUP_CAPACITY → (isMessageProcessed ids x).2.length ≤ DEDUP_CAPACITY) ∧
    (x ∉ ids → ids.length = DEDUP_CAPACITY →
      (isMessageProcessed ids x).2 = ids.tail ++ [x]) ∧
    (x ∈ ids → (isMessageProcessed ids x).2 = ids) := by
  refine ⟨fun h => isMessageProcessed_length_le h, fun hm hlen => ?_, fun hm => ?_⟩
  · simp only [isMessageProcessed, if_neg hm]
    have hgt : DEDUP_CAPACITY < (ids ++ [x]).length := by
      simp [hlen]
    rw [if_pos hgt]
    cases ids with
    | nil => simp [DEDUP_CAPACITY] at hlen
    | cons a t => simp
  · rw [isMessageProcessed_of_mem hm]

theorem dedup_capacity_eviction_witness :
    (isMessageProcessed (List.replicate 2000 "a") "x").2.length ≤ DEDUP_CAPACITY ∧
    (isMessageProcessed (List.replicate 2000 "a") "x").2 =
      (List.replicate 2000 "a").tail ++ ["x"] :=
  ⟨(dedup_capacity_eviction (List.replicate 2000 "a") "x").1
      (le_of_eq (List.length_replicate 2000 "a")),
   (dedup_capacity_eviction (List.replicate 2000 "a") "x").2.1
      (fun h => absurd (List.eq_of_mem_replicate h) (by decide))
      (List.length_replicate 2000 "a")⟩

/-! ## Stream aggregation buffer

JS source (`handleStreamUpdate` in the handler file):

  if (typeof delta === 'string' && delta.length > 0) {
    buffer.fullContent += delta;
  } else if (typeof part.text === 'string') {
    if (part.text.length >= buffer.fullContent.length) {
      buffer.fullContent = part.text;
    }
  }
  const now = Date.now();
  const shouldUpdate = !buffer.feishuMsgId || now - buffer.lastUpdateTime > UPDATE_INTERVAL;
  if (shouldUpdate && buffer.fullContent) { ... send or edit ... }
-/

inductive PartType
  | text
  | reasoning
deriving DecidableEq, Repr

/-- Embeds the in-memory `MessageBuffer` record keyed by backend message id. -/
structure MessageBuffer where
  feishuMsgId : Option String
  fullContent : String
  btype : PartType
  lastUpdateTime : Int
  isFinished : Bool
deriving DecidableEq, Repr

def UPDATE_INTERVAL : Int := 800

/-- Embeds the full-snapshot branch: replace the accumulation only when the
snapshot is at least as long as the current accumulation. -/
def snapshotApply (cur : String) (ptext : Option String) : String :=
  match ptext with
  | some t => if cur.length ≤ t.length then t else cur
  | none => cur

/-- Embeds the content-accumulation step of `handleStreamUpdate`: a non-empty
delta is appended; otherwise a present `part.text` snapshot is offered to
`snapshotApply`. -/
def applyFragment (cur : String) (delta ptext : Option String) : String :=
  match delta with
  | some d => if 0 < d.length then cur ++ d else snapshotApply cur ptext
  | none => snapshotApply cur ptext

/-- JS string truthiness for a possibly-absent string value. -/
def strTruthy : Option String → Bool
  | some s => s ≠ ""
  | none => false

/-- Outbound platform call made by a flush. -/
inductive FlushCall
  | send (chatId content : String)
  | edit (chatId msgId content : String)
deriving DecidableEq, Repr

/-- Fresh buffer created on the first fragment for a backend message id. -/
def initBuffer (ptype : PartType) : MessageBuffer :=
  ⟨none, "", ptype, 0, false⟩

/-- Embeds one call of `handleStreamUpdate` for a fixed backend message id:
accumulate the fragment, then flush (send or edit) when due.  `sendResult`
is the value the adapter's `sendMessage` resolved with (recorded into
`feishuMsgId` only when truthy, per `if (sentId) buffer.feishuMsgId = sentId`). -/
def handleStreamUpdate (chatId : String) (buf0 : Option MessageBuffer)
    (ptype : PartType) (delta ptext : Option String) (now : Int)
    (sendResult : Option String) : MessageBuffer × Option FlushCall :=
  let buf := buf0.getD (initBuffer ptype)
  let content := applyFragment buf.fullContent delta ptext
  let buf1 : MessageBuffer :=
    { buf with fullContent := content }
  if (buf1.feishuMsgId = none ∨ UPDATE_INTERVAL < now - buf1.lastUpdateTime) ∧
      content ≠ "" then
    let buf2 : MessageBuffer := { buf1 with lastUpdateTime := now }
    let displayContent :=
      if buf2.btype = PartType.reasoning then "🤔 思考中...\n\n" ++ content
      else content
    match buf2.feishuMsgId with
    | none =>
        let buf3 : MessageBuffer :=
          if strTruthy sendResult then { buf2 with feishuMsgId := sendResult }
          else buf2
        (buf3, some (FlushCall.send chatId displayContent))
    | some mid => (buf2, some (FlushCall.edit chatId mid displayContent))
  else (buf1, none)

/-- C3: a non-empty delta appends; a full snapshot replaces the accumulation
iff its length is at least the current accumulation's length; the accumulated
length never decreases; and the spec's concrete example traces hold
(deltas "Hel","lo " then snapshot "Hello world" yield "Hello world", and a
later snapshot "Hi" leaves it unchanged). -/
theorem stream_accumulation (cur : String) :
    (∀ (d : String) (ptext : Option String), 0 < d.length →
      applyFragment cur (some d) ptext = cur ++ d) ∧
    (∀ t : String, applyFragment cur none (some t) = t ↔ cur.length ≤ t.length) ∧
    (∀ delta ptext : Option String, cur.length ≤ (applyFragment cur delta ptext).length) ∧
    (List.foldl (fun c f => applyFragment c f.1 f.2) ""
        [(some "Hel", none), (some "lo ", none), (none, some "Hello world")] =
      "Hello world" ∧
     applyFragment "Hello world" none (some "Hi") = "Hello world") := by
  have hsnap : ∀ (c : String) (ptext : Option String),
      c.length ≤ (snapshotApply c ptext).length := by
    intro c ptext
    cases ptext with
    | none => exact le_refl _
    | some t =>
        simp only [snapshotApply]
        split
        · assumption
        · exact le_refl _
  refine ⟨fun d ptext hd => by simp [applyFragment, hd], fun t => ?_, ?_, by decide⟩
  · constructor
    · intro heq
      by_cases hle : cur.length ≤ t.length
      · exact hle
      · exfalso
        simp only [applyFragment, snapshotApply, if_neg hle] at heq
        exact hle (heq ▸ le_refl _)
    · intro hle
      simp [applyFragment, snapshotApply, hle]
  · intro delta ptext
    cases delta with
    | none => exact hsnap cur ptext
    | some d =>
        simp only [applyFragment]
        split
        · simp [String.length_append]
        · exact hsnap cur ptext

theorem stream_accumulation_witness :
    applyFragment "Hello " (some "wo") none = "Hello " ++ "wo" ∧
    (applyFragment "Hello world" none (some "Hi") = "Hi" ↔
      ("Hello world".length ≤ "Hi".length)) :=
  ⟨(stream_accumulation "Hello ").1 "wo" none (by decide),
   (stream_accumulation "Hello world").2.1 "Hi"⟩

/-- Modelled from the spec: the spec's flush-due condition for a fragment
update — the accumulated content is non-empty and either no platform message
id is recorded yet, or at least the 800ms throttle interval has elapsed since
the last flush.  Used as the claimed predicate to compare against the code's
decision. -/
def specFlushDue (feishuMsgId : Option String) (content : String)
    (now lastUpdateTime : Int) : Prop :=
  content ≠ "" ∧ (feishuMsgId = none ∨ UPDATE_INTERVAL ≤ now - lastUpdateTime)

/-- C4 counterexample: with a platform message id recorded, last flush at
time 0 and a fragment arriving at exactly time 800, exactly 800ms (the full
throttle interval) has elapsed, so the claimed condition is due — yet the
code performs no flush, because it requires `now - lastUpdateTime > 800`
strictly. -/
theorem throttle_boundary_cex :
    specFlushDue (some "m1") "Hello!" 800 0 ∧
    (handleStreamUpdate "c1" (some ⟨some "m1", "Hello", PartType.text, 0, false⟩)
        PartType.text (some "!") none 800 none).2 = none := by
  constructor
  · exact ⟨by decide, Or.inr (by decide)⟩
  · decide

/-- C4 (amended): a flush is performed on a fragment update exactly when the
accumulated content is non-empty and either no platform message id is recorded
yet, or strictly more than the 800ms throttle interval has elapsed since the
last flush; moreover, after a flush at time 0, fragments arriving 10ms apart
inside the window (times 10 and 20) cause no additional outbound call, while
a fragment arriving 900ms after the last flush triggers an immediate edit. -/
theorem throttle_flush_decision :
    (∀ (chatId : String) (buf : MessageBuffer) (ptype : PartType)
        (delta ptext : Option String) (now : Int) (sendResult : Option String),
      (handleStreamUpdate chatId (some buf) ptype delta ptext now sendResult).2 ≠ none ↔
        applyFragment buf.fullContent delta ptext ≠ "" ∧
          (buf.feishuMsgId = none ∨ UPDATE_INTERVAL < now - buf.lastUpdateTime)) ∧
    ((handleStreamUpdate "c1" (some ⟨some "m1", "Hello", PartType.text, 0, false⟩)
        PartType.text (some " a") none 10 none).2 = none ∧
     (handleStreamUpdate "c1"
        (some (handleStreamUpdate "c1"
          (some ⟨some "m1", "Hello", PartType.text, 0, false⟩)
          PartType.text (some " a") none 10 none).1)
        PartType.text (some " b") none 20 none).2 = none) ∧
    (handleStreamUpdate "c1" (some ⟨some "m1", "Hello", PartType.text, 0, false⟩)
        PartType.text (some "!") none 900 none).2 =
      some (FlushCall.edit "c1" "m1" "Hello!") := by
  refine ⟨fun chatId buf ptype delta ptext now sendResult => ?_, by decide, by decide⟩
  simp only [handleStreamUpdate]
  split
  · rename_i hcond
    obtain ⟨hdue, hcontent⟩ := hcond
    constructor
    · intro _
      refine ⟨hcontent, ?_⟩
      simpa using hdue
    · intro _
      split <;> simp
  · rename_i hcond
    constructor
    · intro hne
      exact absurd rfl hne
    · intro hclaim
      exfalso
      exact hcond ⟨by simpa using hclaim.2, hclaim.1⟩

/-! ## Token lifecycle manager (TeamsClient)

JS source (teamsClient.ts lines 40-56):

  if (this.accessToken && Date.now() < this.tokenExpiresAt - 60000) return;
  if (this.refreshToken && this.config.client_id) {
    await this.refreshAccessToken();
    return;
  }
  if (!this.accessToken) throw new Error('[Teams] No access token available');

The bootstrap (`parseTeamsConfig` in index.ts / index.teams.ts) throws unless
`client_id` is truthy, so every constructed `TeamsClient` has a non-empty
client id. -/

/-- Credential state owned by one `TeamsClient` instance. -/
structure TeamsTokenState where
  accessToken : String
  tokenExpiresAt : Int
  refreshToken : Option String
  clientId : String
deriving DecidableEq, Repr

/-- Result of one `ensureValidToken` call. -/
inductive TokenAction
  | useExisting
  | refresh
  | failNoToken
deriving DecidableEq, Repr

/-- Embeds `TeamsClient.ensureValidToken`, evaluated at time `now`. -/
def ensureValidToken (st : TeamsTokenState) (now : Int) : TokenAction :=
  if st.accessToken ≠ "" ∧ now < st.tokenExpiresAt - 60000 then TokenAction.useExisting
  else if strTruthy st.refreshToken ∧ st.clientId ≠ "" then TokenAction.refresh
  else if st.accessToken = "" then TokenAction.failNoToken
  else TokenAction.useExisting

/-- C8: with a (bootstrap-guaranteed) non-empty client id, `ensureValidToken`
fails with the no-access-token error exactly when no access token is set and
no refresh credential is configured; a set token whose expiry is more than 60s
away is used without refresh; a missing or within-margin token with a refresh
credential configured triggers a refresh; and a set token without a refresh
credential is used as-is even past expiry. -/
theorem ensureValidToken_branches (st : TeamsTokenState) (now : Int)
    (hcid : st.clientId ≠ "") :
    (ensureValidToken st now = TokenAction.failNoToken ↔
      st.accessToken = "" ∧ ¬ strTruthy st.refreshToken) ∧
    (st.accessToken ≠ "" → 60000 < st.tokenExpiresAt - now →
      ensureValidToken st now = TokenAction.useExisting) ∧
    ((st.accessToken = "" ∨ st.tokenExpiresAt - now ≤ 60000) →
      strTruthy st.refreshToken →
      ensureValidToken st now = TokenAction.refresh) ∧
    (st.accessToken ≠ "" → ¬ strTruthy st.refreshToken →
      ensureValidToken st now = TokenAction.useExisting) := by
  refine ⟨?_, fun htok hfresh => ?_, fun hstale hrt => ?_, fun htok hrt => ?_⟩
  · simp only [ensureValidToken]
    split_ifs with h1 h2 h3
    · exact iff_of_false (by decide) (fun h => h1.1 h.1)
    · exact iff_of_false (by decide) (fun h => h.2 h2.1)
    · exact iff_of_true rfl ⟨h3, fun hrt => h2 ⟨hrt, hcid⟩⟩
    · exact iff_of_false (by decide) (fun h => h3 h.1)
  · simp only [ensureValidToken]
    rw [if_pos ⟨htok, by omega⟩]
  · have hnot : ¬ (st.accessToken ≠ "" ∧ now < st.tokenExpiresAt - 60000) := by
      rcases hstale with hempty | hle
      · exact fun h => h.1 hempty
      · exact fun h => by omega
    simp only [ensureValidToken]
    rw [if_neg hnot, if_pos ⟨hrt, hcid⟩]
  · by_cases hc : now < st.tokenExpiresAt - 60000
    · simp only [ensureValidToken]
      rw [if_pos ⟨htok, hc⟩]
    · simp only [ensureValidToken]
      rw [if_neg (fun h => hc h.2), if_neg (fun h => hrt h.1), if_neg htok]

theorem ensureValidToken_branches_witness :
    ensureValidToken ⟨"", 0, none, "cid"⟩ 0 = TokenAction.failNoToken ∧
    ensureValidToken ⟨"tok", 30000, some "r", "cid"⟩ 0 = TokenAction.refresh :=
  ⟨((ensureValidToken_branches ⟨"", 0, none, "cid"⟩ 0 (by decide)).1).2
      ⟨rfl, by decide⟩,
   (ensureValidToken_branches ⟨"tok", 30000, some "r", "cid"⟩ 0 (by decide)).2.2.1
      (Or.inr (by decide)) (by decide)⟩

/-! ## Concurrent refresh (C7 scenario)

`ensureValidToken` has no in-flight refresh guard: the staleness decision
reads the shared credential state synchronously, and the state is only
updated when the refresh HTTP response resolves (refreshAccessToken lines
77-84).  Under the single-threaded cooperative scheduling of the runtime, a
caller that reaches `await axios.post` suspends, letting further callers run
their decision against the still-unrefreshed state.  `callStep` models one
caller running up to its suspension point; `resolveStep` models one pending
refresh response arriving. -/

/-- Shared state for concurrently issued `ensureValidToken` calls. -/
structure RefreshRace where
  token : TeamsTokenState
  now : Int
  pending : Nat
  requests : Nat
deriving DecidableEq, Repr

/-- One caller invokes `ensureValidToken` and, if the token is stale with a
refresh credential configured, issues a refresh HTTP request and suspends. -/
def callStep (s : RefreshRace) : RefreshRace :=
  match ensureValidToken s.token s.now with
  | TokenAction.refresh =>
      { s with pending := s.pending + 1, requests := s.requests + 1 }
  | _ => s

/-- One pending refresh response resolves, recording the rotated token and the
new expiry (now + provider-reported lifetime), per refreshAccessToken. -/
def resolveStep (s : RefreshRace) (newToken : String) (expiresInSec : Int) :
    RefreshRace :=
  if s.pending = 0 then s
  else
    { s with
      pending := s.pending - 1,
      token := { s.token with
        accessToken := newToken,
        tokenExpiresAt := s.now + expiresInSec * 1000 } }

/-- C7: evaluating the code's refresh path at the claim's scenario — expiry
30s away (within the 60s margin), refresh credential configured, and three
`ensureValid()` calls arriving before the in-flight refresh resolves — the
code issues three refresh requests, not the single coalesced request the
claim requires. -/
theorem ensureValidToken_concurrent_refresh_count :
    (callStep (callStep (callStep
        ⟨⟨"tok", 30000, some "r", "cid"⟩, 0, 0, 0⟩))).requests = 3 ∧
    (callStep (callStep (callStep
        ⟨⟨"tok", 30000, some "r", "cid"⟩, 0, 0, 0⟩))).requests ≠ 1 := by
  decide

/-! ## Session router

JS source (`createMessageHandler` in the handler file):

  let sessionId = sessionCache.get(chatId);
  if (!sessionId) {
    const uniqueTitle = ...;
    const res = await api.createSession({ body: { title: uniqueTitle } });
    sessionId = res.data?.id;
    if (sessionId) sessionCache.set(chatId, sessionId);
  }
  ...
  if (error.status === 404) sessionCache.delete(chatId);

The backend's `createSession` is an external collaborator that issues the
session id; it is modelled as a counter handing out distinct fresh ids
(`nextSession`), so that ids created later differ from all earlier ones. -/

/-- Session cache plus the backend's fresh-id supply. -/
structure SessionRouter where
  cache : List (String × Nat)
  nextSession : Nat
deriving DecidableEq, Repr

/-- Embeds JS `Map.get` (value of the unique entry with key `k`, if any). -/
def cacheGet (cache : List (String × Nat)) (k : String) : Option Nat :=
  match cache with
  | [] => none
  | p :: rest => if p.1 = k then some p.2 else cacheGet rest k

/-- Embeds JS `Map.set` (replace in place, else append). -/
def cacheSet (cache : List (String × Nat)) (k : String) (v : Nat) :
    List (String × Nat) :=
  match cache with
  | [] => [(k, v)]
  | p :: rest => if p.1 = k then (k, v) :: rest else p :: cacheSet rest k v

/-- Embeds JS `Map.delete`. -/
def cacheDelete (cache : List (String × Nat)) (k : String) :
    List (String × Nat) :=
  cache.filter (fun p => ¬ p.1 = k)

/-- Embeds the session-resolution step of `createMessageHandler`: return the
cached binding, or create a fresh backend session and cache it.  The third
component records whether a backend session was created by this call. -/
def resolveSession (rt : SessionRouter) (chatId : String) :
    Nat × SessionRouter × Bool :=
  match cacheGet rt.cache chatId with
  | some sid => (sid, rt, false)
  | none =>
      (rt.nextSession,
        ⟨cacheSet rt.cache chatId rt.nextSession, rt.nextSession + 1⟩, true)

/-- Embeds the 404 invalidation `sessionCache.delete(chatId)`. -/
def invalidateSession (rt : SessionRouter) (chatId : String) : SessionRouter :=
  ⟨cacheDelete rt.cache chatId, rt.nextSession⟩

/-- Every cached session id was handed out earlier by the backend counter. -/
def FreshIds (rt : SessionRouter) : Prop :=
  ∀ p ∈ rt.cache, p.2 < rt.nextSession

theorem cacheGet_set_self (cache : List (String × Nat)) (k : String) (v : Nat) :
    cacheGet (cacheSet cache k v) k = some v := by
  induction cache with
  | nil => simp [cacheSet, cacheGet]
  | cons p rest ih =>
      by_cases h : p.1 = k
      · simp [cacheSet, cacheGet, h]
      · simpa [cacheSet, cacheGet, h] using ih

theorem cacheGet_delete_self (cache : List (String × Nat)) (k : String) :
    cacheGet (cacheDelete cache k) k = none := by
  induction cache with
  | nil => rfl
  | cons p rest ih =>
      by_cases hk : p.1 = k
      · simpa [cacheDelete, List.filter_cons, hk] using ih
      · simpa [cacheDelete, cacheGet, List.filter_cons, hk] using ih

theorem cacheGet_mem (cache : List (String × Nat)) (k : String) (v : Nat)
    (h : cacheGet cache k = some v) : (k, v) ∈ cache := by
  induction cache with
  | nil => simp [cacheGet] at h
  | cons p rest ih =>
      obtain ⟨a, b⟩ := p
      simp only [cacheGet] at h
      by_cases hk : a = k
      · rw [if_pos hk] at h
        obtain rfl : b = v := by injection h
        subst hk
        exact List.mem_cons_self _ _
      · rw [if_neg hk] at h
        exact List.mem_cons_of_mem _ (ih h)

theorem resolveSession_get_some {rt : SessionRouter} {c : String} {sid : Nat}
    (h : cacheGet rt.cache c = some sid) :
    resolveSession rt c = (sid, rt, false) := by
  simp [resolveSession, h]

theorem resolveSession_get_none {rt : SessionRouter} {c : String}
    (h : cacheGet rt.cache c = none) :
    resolveSession rt c =
      (rt.nextSession,
        ⟨cacheSet rt.cache c rt.nextSession, rt.nextSession + 1⟩, true) := by
  simp [resolveSession, h]

/-- C9: with all cached ids older than the backend counter, resolving a
conversation twice in a row yields the same session id both times and the
second resolution creates no backend session; after invalidating the binding,
the next resolution creates a fresh backend session whose id differs from the
one resolved before. -/
theorem session_resolve_cached (rt : SessionRouter) (c : String)
    (hfresh : FreshIds rt) :
    ((resolveSession (resolveSession rt c).2.1 c).1 = (resolveSession rt c).1 ∧
     (resolveSession (resolveSession rt c).2.1 c).2.2 = false) ∧
    ((resolveSession (invalidateSession (resolveSession rt c).2.1 c) c).2.2 = true ∧
     (resolveSession (invalidateSession (resolveSession rt c).2.1 c) c).1 ≠
       (resolveSession rt c).1) := by
  have hsecond :
      cacheGet (resolveSession rt c).2.1.cache c = some (resolveSession rt c).1 := by
    cases hg : cacheGet rt.cache c with
    | some sid => rw [resolveSession_get_some hg]; exact hg
    | none => rw [resolveSession_get_none hg]; exact cacheGet_set_self _ _ _
  have hlt : (resolveSession rt c).1 < (resolveSession rt c).2.1.nextSession := by
    cases hg : cacheGet rt.cache c with
    | some sid =>
        rw [resolveSession_get_some hg]
        exact hfresh _ (cacheGet_mem rt.cache c sid hg)
    | none =>
        rw [resolveSession_get_none hg]
        exact Nat.lt_succ_self _
  refine ⟨?_, ?_⟩
  · rw [resolveSession_get_some hsecond]
    exact ⟨rfl, rfl⟩
  · have hinv : cacheGet (invalidateSession (resolveSession rt c).2.1 c).cache c
        = none := cacheGet_delete_self _ _
    rw [resolveSession_get_none hinv]
    refine ⟨rfl, ?_⟩
    show (invalidateSession (resolveSession rt c).2.1 c).nextSession ≠
      (resolveSession rt c).1
    exact Nat.ne_of_gt hlt

theorem session_resolve_cached_witness :
    ((resolveSession (resolveSession ⟨[], 0⟩ "chat1").2.1 "chat1").1 =
        (resolveSession ⟨[], 0⟩ "chat1").1 ∧
     (resolveSession (resolveSession ⟨[], 0⟩ "chat1").2.1 "chat1").2.2 = false) ∧
    ((resolveSession (invalidateSession
        (resolveSession ⟨[], 0⟩ "chat1").2.1 "chat1") "chat1").2.2 = true ∧
     (resolveSession (invalidateSession
        (resolveSession ⟨[], 0⟩ "chat1").2.1 "chat1") "chat1").1 ≠
       (resolveSession ⟨[], 0⟩ "chat1").1) :=
  session_resolve_cached ⟨[], 0⟩ "chat1" (by intro p hp; simp at hp)

/-! ## Feishu inbound receive paths

JS source, WebSocket path (Feishu client lines 146-159):

  if (this.isMessageProcessed(messageId)) return;
  const text = this.parseAndCleanContent(message.content, message.mentions);
  if (!text) return;
  await onMessage(chatId, text, messageId, senderId);

Webhook path (lines 217-225):

  if (messageId && chatId && !this.isMessageProcessed(messageId)) {
    const text = this.parseAndCleanContent(...);
    if (text) { onMessage(...).catch(...); }
  }

`parseAndCleanContent` is abstracted by its result: `parsedText` is the string
it returned (it returns '' both for empty content and on a parse error). -/

/-- Result of one inbound event delivery: the updated processed-id cache and
whether the message handler was invoked. -/
structure RecvResult where
  cache : List String
  handlerInvoked : Bool
deriving DecidableEq, Repr

/-- Embeds the WebSocket receive path for one `im.message.receive_v1` event. -/
def wsReceive (cache : List String) (messageId parsedText : String) : RecvResult :=
  let r := isMessageProcessed cache messageId
  if r.1 then ⟨r.2, false⟩
  else if parsedText = "" then ⟨r.2, false⟩
  else ⟨r.2, true⟩

/-- Embeds the webhook receive path for one `im.message.receive_v1` event
(`messageId` / `chatId` may be absent in the payload). -/
def webhookReceive (cache : List String) (messageId chatId : Option String)
    (parsedText : String) : RecvResult :=
  if strTruthy messageId ∧ strTruthy chatId then
    let r := isMessageProcessed cache (messageId.getD "")
    if r.1 then ⟨r.2, false⟩
    else if parsedText = "" then ⟨r.2, false⟩
    else ⟨r.2, true⟩
  else ⟨cache, false⟩

/-- C10: in both Feishu receive paths the external message id enters the
processed-id cache before the content is consulted — an event whose content
parses to empty text is dropped without invoking the handler yet its id is
marked processed, and any later delivery of an id still in the cache is
discarded with the cache unchanged and the handler never invoked. -/
theorem feishu_dedup_before_parse :
    (∀ (cache : List String) (mid : String),
      (wsReceive cache mid "").handlerInvoked = false ∧
        mid ∈ (wsReceive cache mid "").cache) ∧
    (∀ (cache : List String) (mid t : String), mid ∈ cache →
      wsReceive cache mid t = ⟨cache, false⟩) ∧
    (∀ (cache : List String) (mid cid : String), mid ≠ "" → cid ≠ "" →
      (webhookReceive cache (some mid) (some cid) "").handlerInvoked = false ∧
        mid ∈ (webhookReceive cache (some mid) (some cid) "").cache) ∧
    (∀ (cache : List String) (mid cid t : String), mid ≠ "" → cid ≠ "" →
      mid ∈ cache →
      webhookReceive cache (some mid) (some cid) t = ⟨cache, false⟩) := by
  have hws : ∀ (cache : List String) (mid : String),
      (wsReceive cache mid "").handlerInvoked = false ∧
        mid ∈ (wsReceive cache mid "").cache := by
    intro cache mid
    simp only [wsReceive]
    constructor
    · split
      · rfl
      · simp
    · split
      · exact isMessageProcessed_mem_self cache mid
      · simpa using isMessageProcessed_mem_self cache mid
  have hwsdup : ∀ (cache : List String) (mid t : String), mid ∈ cache →
      wsReceive cache mid t = ⟨cache, false⟩ := by
    intro cache mid t hm
    simp [wsReceive, isMessageProcessed_of_mem hm]
  refine ⟨hws, hwsdup, fun cache mid cid hmid hcid => ?_,
    fun cache mid cid t hmid hcid hm => ?_⟩
  · have hcond : strTruthy (some mid) ∧ strTruthy (some cid) := by
      simp [strTruthy, hmid, hcid]
    simp only [webhookReceive, if_pos hcond, Option.getD]
    constructor
    · split
      · rfl
      · simp
    · split
      · exact isMessageProcessed_mem_self cache mid
      · simpa using isMessageProcessed_mem_self cache mid
  · have hcond : strTruthy (some mid) ∧ strTruthy (some cid) := by
      simp [strTruthy, hmid, hcid]
    simp [webhookReceive, if_pos hcond, Option.getD,
      isMessageProcessed_of_mem hm]

theorem feishu_dedup_before_parse_witness :
    ((wsReceive ["a"] "m1" "").handlerInvoked = false ∧
      "m1" ∈ (wsReceive ["a"] "m1" "").cache) ∧
    wsReceive ["m1", "a"] "m1" "hello" = ⟨["m1", "a"], false⟩ ∧
    webhookReceive ["m1"] (some "m1") (some "c1") "hello" = ⟨["m1"], false⟩ :=
  ⟨feishu_dedup_before_parse.1 ["a"] "m1",
   feishu_dedup_before_parse.2.1 ["m1", "a"] "m1" "hello" (by decide),
   feishu_dedup_before_parse.2.2.2 ["m1"] "m1" "c1" "hello"
     (by decide) (by decide) (by decide)⟩

/-! ## Adapter sendMessage return values

Teams (teamsClient.ts lines 139-158):

  const res = await this.axios.post(...);
  const messageId = res.data?.id;
  return messageId || null;        // null also returned from the catch block

Feishu client (lines 90-104):

  try {
    await this.apiClient.im.message.create({...});
    console.log(...);              // no return statement: resolves undefined
  } catch (error) {
    console.error(...);            // no return statement: resolves undefined
  }

The platform call is abstracted by its outcome: `Except Unit (Option String)`
is either an error (the catch path) or a response whose `data?.id` field is
the contained option. -/

/-- Embeds `TeamsClient.sendMessage`'s returned value as a function of the
platform call's outcome. -/
def teamsSendMessage (apiResult : Except Unit (Option String)) : Option String :=
  match apiResult with
  | Except.ok idField =>
      match idField with
      | some mid => if mid = "" then none else some mid
      | none => none
  | Except.error _ => none

/-- Embeds `FeishuClient.sendMessage`'s returned value: the function body has
no return statement on either path, so the promise resolves with `undefined`
(modelled `none`) regardless of the platform response — the response's message
id is discarded. -/
def feishuSendMessage (apiResult : Except Unit (Option String)) : Option String :=
  match apiResult with
  | Except.ok _ => none
  | Except.error _ => none

/-- C2 evaluation: on a successful Feishu send whose platform response carries
the new message id "om_1", `sendMessage` returns no id at all (JS
`undefined`), so the flush path that runs `const sentId = await
feishu.sendMessage(...)` never records a platform message id — while the
Teams client does return the id on success and null on failure as the claim
states. -/
theorem feishuSendMessage_discards_id :
    feishuSendMessage (Except.ok (some "om_1")) = none ∧
    (∀ r : Except Unit (Option String), feishuSendMessage r = none) ∧
    teamsSendMessage (Except.ok (some "msg_1")) = some "msg_1" ∧
    teamsSendMessage (Except.error ()) = none ∧
    (handleStreamUpdate "c1" none PartType.text (some "hi") none 0
        (feishuSendMessage (Except.ok (some "om_1")))).1.feishuMsgId = none := by
  refine ⟨rfl, fun r => ?_, by decide, rfl, by decide⟩
  cases r <;> rfl

/-! ## Per-conversation task queue

JS source (`createMessageHandler`, handler file lines 25-33 and 164-171):

  const previousTask = chatQueues.get(chatId) || Promise.resolve();
  const currentTask = (async () => {
    await previousTask.catch(() => {});
    ... processing body ...
  })();
  chatQueues.set(chatId, currentTask);
  return currentTask;

For one conversation id this builds a linear promise chain: task `i+1` awaits
task `i`'s promise with the rejection swallowed, so its body may begin exactly
when task `i` has settled — resolved or rejected — and it then settles with
its own outcome.  `QueueStep` is the small-step embedding of that chain under
the runtime's cooperative scheduling: `start i` is the body of task `i`
passing its initial await (allowed once the predecessor has settled, with
either outcome), `finish i` is the body running to its own settlement.
`outcome i` is task `i`'s own success/failure, fixed by its body alone. -/

/-- Observable status of one enqueued task's body. -/
inductive TaskStatus
  | pending
  | running
  | settled (ok : Bool)
deriving DecidableEq, Repr

/-- State of one conversation's queue: the status of each enqueued task,
indexed by arrival order. -/
def QueueState := Nat → TaskStatus

/-- Pointwise update of one task's status. -/
def setTask (σ : QueueState) (i : Nat) (v : TaskStatus) : QueueState :=
  fun j => if j = i then v else σ j

/-- All tasks start out pending. -/
def initQueue : QueueState := fun _ => TaskStatus.pending

/-- One scheduler step over the promise chain of a single conversation. -/
inductive QueueStep (outcome : Nat → Bool) : QueueState → QueueState → Prop
  | start (σ : QueueState) (i : Nat) :
      σ i = TaskStatus.pending →
      (i = 0 ∨ ∃ b, σ (i - 1) = TaskStatus.settled b) →
      QueueStep outcome σ (setTask σ i TaskStatus.running)
  | finish (σ : QueueState) (i : Nat) :
      σ i = TaskStatus.running →
      QueueStep outcome σ (setTask σ i (TaskStatus.settled (outcome i)))

/-- States reachable from the all-pending queue by scheduler steps. -/
def QueueReachable (outcome : Nat → Bool) (σ : QueueState) : Prop :=
  Relation.ReflTransGen (QueueStep outcome) initQueue σ

/-- Serialization invariant: whenever a task has begun (is no longer pending),
every earlier task has already settled. -/
def SerialInv (σ : QueueState) : Prop :=
  ∀ i j : Nat, i < j → σ j ≠ TaskStatus.pending →
    ∃ b, σ i = TaskStatus.settled b

theorem serialInv_init : SerialInv initQueue := by
  intro i j _ hj
  exact absurd rfl hj

theorem serialInv_step {outcome : Nat → Bool} {σ σ' : QueueState}
    (hstep : QueueStep outcome σ σ') (hinv : SerialInv σ) : SerialInv σ' := by
  cases hstep with
  | start i hpend hgate =>
      intro a b hab hb
      by_cases hbi : b = i
      · subst hbi
        -- every task below the started one has settled
        rcases hgate with hz | ⟨c, hc⟩
        · omega
        · have hbnd : a ≤ b - 1 := by omega
          have hsettled : ∃ d, σ a = TaskStatus.settled d := by
            rcases Nat.lt_or_ge a (b - 1) with hlt | hge
            · exact hinv a (b - 1) hlt (by rw [hc]; exact fun h => by cases h)
            · have : a = b - 1 := by omega
              exact this ▸ ⟨c, hc⟩
          obtain ⟨d, hd⟩ := hsettled
          refine ⟨d, ?_⟩
          have hai : a ≠ b := by omega
          simpa [setTask, hai] using hd
      · have hb' : σ b ≠ TaskStatus.pending := by
          simpa [setTask, hbi] using hb
        obtain ⟨d, hd⟩ := hinv a b hab hb'
        have hai : a ≠ i := by
          intro h
          subst h
          rw [hpend] at hd
          cases hd
        exact ⟨d, by simpa [setTask, hai] using hd⟩
  | finish i hrun =>
      intro a b hab hb
      have hb' : σ b ≠ TaskStatus.pending := by
        by_cases hbi : b = i
        · subst hbi
          rw [hrun]
          exact fun h => by cases h
        · simpa [setTask, hbi] using hb
      obtain ⟨d, hd⟩ := hinv a b hab hb'
      have hai : a ≠ i := by
        intro h
        subst h
        rw [hrun] at hd
        cases hd
      exact ⟨d, by simpa [setTask, hai] using hd⟩

theorem serialInv_reachable {outcome : Nat → Bool} {σ : QueueState}
    (h : QueueReachable outcome σ) : SerialInv σ := by
  induction h with
  | refl => exact serialInv_init
  | tail _ hstep ih => exact serialInv_step hstep ih

/-- Settled values record each task's own outcome, independent of earlier
tasks' outcomes. -/
theorem settled_eq_outcome {outcome : Nat → Bool} {σ : QueueState}
    (h : QueueReachable outcome σ) :
    ∀ i b, σ i = TaskStatus.settled b → b = outcome i := by
  induction h with
  | refl =>
      intro i b hb
      cases hb
  | tail _ hstep ih =>
      cases hstep with
      | start j hpend hgate =>
          intro i b hb
          by_cases hij : i = j
          · subst hij
            simp [setTask] at hb
          · exact ih i b (by simpa [setTask, hij] using hb)
      | finish j hrun =>
          intro i b hb
          by_cases hij : i = j
          · subst hij
            simp [setTask] at hb
            exact hb.symm
          · exact ih i b (by simpa [setTask, hij] using hb)

/-- C1: along every schedule of the per-conversation promise chain, two
enqueued tasks of one conversation are never running at the same time; a
task's body has begun only if every earlier task has settled (resolved or
rejected); each task settles with its own outcome regardless of earlier
failures; and a settled-rejected predecessor leaves the next pending task
free to start (rejection neither blocks nor fails it). -/
theorem queue_serializes_per_conversation (outcome : Nat → Bool)
    (σ : QueueState) (hreach : QueueReachable outcome σ) :
    (∀ i j : Nat, σ i = TaskStatus.running → σ j = TaskStatus.running → i = j) ∧
    (∀ i j : Nat, i < j → σ j ≠ TaskStatus.pending →
      ∃ b, σ i = TaskStatus.settled b) ∧
    (∀ i : Nat, ∀ b : Bool, σ i = TaskStatus.settled b → b = outcome i) ∧
    (∀ i : Nat, σ i = TaskStatus.settled false →
      σ (i + 1) = TaskStatus.pending →
      QueueStep outcome σ (setTask σ (i + 1) TaskStatus.running)) := by
  have hinv := serialInv_reachable hreach
  refine ⟨fun i j hi hj => ?_, hinv, settled_eq_outcome hreach, fun i hfail hpend => ?_⟩
  · rcases Nat.lt_trichotomy i j with hlt | heq | hgt
    · obtain ⟨b, hb⟩ := hinv i j hlt (by rw [hj]; exact fun h => by cases h)
      rw [hi] at hb
      cases hb
    · exact heq
    · obtain ⟨b, hb⟩ := hinv j i hgt (by rw [hi]; exact fun h => by cases h)
      rw [hj] at hb
      cases hb
  · exact QueueStep.start σ (i + 1) hpend (Or.inr ⟨false, by simpa using hfail⟩)

theorem queue_serializes_per_conversation_witness :
    ∃ b, (setTask (setTask (setTask initQueue 0 TaskStatus.running) 0
        (TaskStatus.settled ((fun _ => false) 0))) 1 TaskStatus.running) 0 =
      TaskStatus.settled b := by
  have h1 : QueueStep (fun _ => false) initQueue
      (setTask initQueue 0 TaskStatus.running) :=
    QueueStep.start initQueue 0 rfl (Or.inl rfl)
  have h2 : QueueStep (fun _ => false)
      (setTask initQueue 0 TaskStatus.running)
      (setTask (setTask initQueue 0 TaskStatus.running) 0
        (TaskStatus.settled ((fun _ => false) 0))) :=
    QueueStep.finish _ 0 rfl
  have h3 : QueueStep (fun _ => false)
      (setTask (setTask initQueue 0 TaskStatus.running) 0
        (TaskStatus.settled ((fun _ => false) 0)))
      (setTask (setTask (setTask initQueue 0 TaskStatus.running) 0
        (TaskStatus.settled ((fun _ => false) 0))) 1 TaskStatus.running) :=
    QueueStep.start _ 1 rfl (Or.inr ⟨false, rfl⟩)
  have hreach : QueueReachable (fun _ => false)
      (setTask (setTask (setTask initQueue 0 TaskStatus.running) 0
        (TaskStatus.settled ((fun _ => false) 0))) 1 TaskStatus.running) :=
    Relation.ReflTransGen.tail
      (Relation.ReflTransGen.tail
        (Relation.ReflTransGen.tail Relation.ReflTransGen.refl h1) h2) h3
  exact (queue_serializes_per_conversation (fun _ => false) _ hreach).2.1 0 1
    (by decide) (by intro h; cases h)

end MessageBridge
